import Mathlib

/-!
Verification of the Grundstücke-Hamburg pipeline against its specification.

Shallow embedding of the core source files:
  * `data_parser.py` — field normalisation (`parse_price`) and the batch
    extraction loop (`GrundstueckParser.parse`), including the attribute-map
    construction and its `dict.get` defaults;
  * `quality_scoring.py` — the four categorical sub-scorers, the weighted
    aggregate `quality_score`, the `pd.cut` category binning, the valuation
    chain (`quality_factor`, `expected_price_per_sqm`, `price_quality_ratio`)
    and `get_value_rating`;
  * `advanced_analytics.py` / `web_app.py` — the `price_per_sqm`
    normalisation of `_clean_data` and of the module-level cleaning block.

Numbers are modelled by `ℚ` (sub-scores, Python ints, by `ℕ`).  Every
decimal literal in the Python source (the weights 0.40/0.25/0.20/0.15, the
rating thresholds, the bin edges) is exactly representable in binary64, and
each product and sum a claim mentions rounds to the exact rational value
under binary64 arithmetic, so the rational model agrees with the
floating-point execution on every value a claim touches ("to floating
tolerance").

Nullable values (Python `None` / pandas `NaN`) are modelled by `Option`.
pandas stringifies a missing categorical cell to the string "nan" before
the sub-scorers' substring tests, which `pyStrOpt` reproduces.
-/

/-- `isPrefixL needle hay = true` iff `needle` is a prefix of `hay`
(character-wise, Boolean). -/
def isPrefixL : List Char → List Char → Bool
  | [], _ => true
  | _ :: _, [] => false
  | a :: as, b :: bs => a == b && isPrefixL as bs

/-- `isInfixL needle hay = true` iff `needle` occurs contiguously in `hay`:
the semantics of Python's `needle in hay` on strings (the empty needle
matches everywhere). -/
def isInfixL (needle : List Char) : List Char → Bool
  | [] => needle.isEmpty
  | c :: rest => isPrefixL needle (c :: rest) || isInfixL needle rest

/-- Python's substring test `needle in hay`. -/
def containsSub (hay needle : String) : Bool :=
  isInfixL needle.data hay.data

/-- Python's `str.lower()`.  The code's match vocabulary and field values
are ASCII, where `Char.toLower` and `str.lower()` agree. -/
def pyLower (s : String) : String :=
  String.mk (s.data.map Char.toLower)

/-- Python's `str(x)` on a nullable cell: a pandas missing value (`NaN`)
stringifies to "nan"; a present string is returned unchanged.  Used by the
sub-scorers, which call `str(row[...]).lower()` (quality_scoring.py
lines 46, 66, 84, 98). -/
def pyStrOpt : Option String → String
  | none => "nan"
  | some s => s

/-! ## FieldNormalizer: `parse_price` (data_parser.py lines 18–27)

`parse_price` takes the part of the string before the first `/`, removes
every `€` and every `,`, strips surrounding whitespace and feeds the result
to Python's `float()`.  `float()` on decimal notation — optional sign,
digits with an optional single decimal point, optional `e`/`E` exponent —
is modelled in two stages: `pyFloatParts` parses the cleaned text into
(sign, integer digits, fraction digits, fraction length, exponent),
returning `none` exactly when `float()` raises (which `parse_price`
converts to `None`), and `ratOfParts` gives the parts their numeric value.
The spellings `inf`/`nan` and digit-group underscores accepted by
`float()` never survive the cleaning step for price strings and are not
modelled. -/

/-- Numeric value of a digit run (most significant digit first). -/
def digitsNat (ds : List Char) : ℕ :=
  ds.foldl (fun a c => a * 10 + (c.toNat - 48)) 0

/-- Exponent after `e`/`E`: optional sign then a nonempty digit run;
`(negative?, magnitude)`. -/
def expParts : List Char → Option (Bool × ℕ)
  | '+' :: r => if r.isEmpty || !(r.all Char.isDigit) then none else some (false, digitsNat r)
  | '-' :: r => if r.isEmpty || !(r.all Char.isDigit) then none else some (true, digitsNat r)
  | r => if r.isEmpty || !(r.all Char.isDigit) then none else some (false, digitsNat r)

/-- Unsigned decimal literal `D+ [. D*] | D* . D+`, optional exponent:
`(integer value, fraction value, fraction length, exponent)`. -/
def mantissaParts (cs : List Char) : Option (ℕ × ℕ × ℕ × Option (Bool × ℕ)) :=
  match cs.dropWhile Char.isDigit with
  | [] =>
    if (cs.takeWhile Char.isDigit).isEmpty then none
    else some (digitsNat (cs.takeWhile Char.isDigit), 0, 0, none)
  | '.' :: rest2 =>
    if (cs.takeWhile Char.isDigit).isEmpty && (rest2.takeWhile Char.isDigit).isEmpty then none
    else
      match rest2.dropWhile Char.isDigit with
      | [] => some (digitsNat (cs.takeWhile Char.isDigit),
          digitsNat (rest2.takeWhile Char.isDigit), (rest2.takeWhile Char.isDigit).length, none)
      | 'e' :: rest4 => (expParts rest4).map (fun e => (digitsNat (cs.takeWhile Char.isDigit),
          digitsNat (rest2.takeWhile Char.isDigit), (rest2.takeWhile Char.isDigit).length, some e))
      | 'E' :: rest4 => (expParts rest4).map (fun e => (digitsNat (cs.takeWhile Char.isDigit),
          digitsNat (rest2.takeWhile Char.isDigit), (rest2.takeWhile Char.isDigit).length, some e))
      | _ => none
  | 'e' :: rest2 =>
    if (cs.takeWhile Char.isDigit).isEmpty then none
    else (expParts rest2).map (fun e => (digitsNat (cs.takeWhile Char.isDigit), 0, 0, some e))
  | 'E' :: rest2 =>
    if (cs.takeWhile Char.isDigit).isEmpty then none
    else (expParts rest2).map (fun e => (digitsNat (cs.takeWhile Char.isDigit), 0, 0, some e))
  | _ => none

/-- Optional leading sign, then `mantissaParts`; first component records a
leading minus. -/
def pyFloatParts (s : String) : Option (Bool × ℕ × ℕ × ℕ × Option (Bool × ℕ)) :=
  match s.data with
  | '+' :: r => (mantissaParts r).map (fun m => (false, m))
  | '-' :: r => (mantissaParts r).map (fun m => (true, m))
  | r => (mantissaParts r).map (fun m => (false, m))

/-- Numeric value of parsed parts. -/
def ratOfParts : Bool × ℕ × ℕ × ℕ × Option (Bool × ℕ) → ℚ
  | (sg, i, f, k, ex) =>
    (if sg then (-1 : ℚ) else 1) *
      ((i + (f : ℚ) / 10 ^ k) *
        match ex with
        | none => 1
        | some (false, e) => (10 : ℚ) ^ e
        | some (true, e) => ((10 : ℚ) ^ e)⁻¹)

/-- Python `float()` on decimal notation. -/
def pyFloat (s : String) : Option ℚ :=
  (pyFloatParts s).map ratOfParts

/-- Python `str.strip()` (whitespace on both ends). -/
def stripWS (cs : List Char) : List Char :=
  ((cs.dropWhile Char.isWhitespace).reverse.dropWhile Char.isWhitespace).reverse

/-- The cleaning step of `parse_price`:
`price_str.split('/')[0].replace('€', '').replace(',', '').strip()`. -/
def clean_price_str (str : String) : String :=
  String.mk (stripWS ((str.data.takeWhile (fun c => c != '/')).filter
    (fun c => c != '€' && c != ',')))

/-- `GrundstueckParser.parse_price` (data_parser.py lines 18–27).  The
`Option String` input covers both `None` and a string; Python's
`if not price_str` treats `None` and the empty string alike. -/
def parse_price (s : Option String) : Option ℚ :=
  match s with
  | none => none
  | some str => if str.isEmpty then none else pyFloat (clean_price_str str)

/-! ## QualityScorer sub-scores (quality_scoring.py lines 36–105)

Each sub-scorer receives the record's nullable categorical cell.  The
Python code lowercases `str(cell)` and tests substrings / equality in the
listed order; `pd.isna` is only consulted by the permission scorer, after
both substring tests.  Sub-scores are Python ints, modelled by `ℕ`. -/

/-- `QualityScorer.score_building_permission` (lines 36–56). -/
def score_building_permission (ct : Option String) : ℕ :=
  if containsSub (pyLower (pyStrOpt ct)) "construction plan"
      || containsSub (pyLower (pyStrOpt ct)) "bebauungsplan" then 50
  else if containsSub (pyLower (pyStrOpt ct)) "like neighbour" then 40
  else if ct.isNone then 20
  else 30

/-- `QualityScorer.score_development` (lines 58–75); the source tests
`'developed' == development or development == 'developed'`, one equality
test written twice. -/
def score_development (dev : Option String) : ℕ :=
  if pyLower (pyStrOpt dev) == "developed" then 100
  else if containsSub (pyLower (pyStrOpt dev)) "partially" then 60
  else if containsSub (pyLower (pyStrOpt dev)) "not developed" then 20
  else 50

/-- `QualityScorer.score_construction_readiness` (lines 77–89). -/
def score_construction_readiness (st : Option String) : ℕ :=
  if pyLower (pyStrOpt st) == "yes" then 100 else 40

/-- `QualityScorer.score_demolition` (lines 91–105). -/
def score_demolition (dm : Option String) : ℕ :=
  if pyLower (pyStrOpt dm) == "no" then 100
  else if pyLower (pyStrOpt dm) == "yes" then 30
  else 70

/-- Weighted aggregate `quality_score` (lines 117–122) with the `WEIGHTS`
of lines 18–23.  Each weight and each product of a weight with a possible
sub-score is exact in binary64, so `ℚ` arithmetic coincides with the
source's float arithmetic here. -/
def quality_score (ct dev st dm : Option String) : ℚ :=
  (score_building_permission ct : ℚ) * 0.40 + (score_development dev : ℚ) * 0.25 +
    (score_construction_readiness st : ℚ) * 0.20 + (score_demolition dm : ℚ) * 0.15

/-- `pd.cut(quality_score, bins=[0,40,60,80,100], labels=[...])`
(lines 125–129).  `pd.cut` with its default `right=True` and
`include_lowest=False` assigns the half-open-below intervals
`(0,40], (40,60], (60,80], (80,100]`; a value outside every bin (such as
exactly 0) receives no label (`NaN`), modelled by `none`. -/
def quality_category (q : ℚ) : Option String :=
  if 0 < q ∧ q ≤ 40 then some "Niedrig"
  else if 40 < q ∧ q ≤ 60 then some "Mittel"
  else if 60 < q ∧ q ≤ 80 then some "Gut"
  else if 80 < q ∧ q ≤ 100 then some "Sehr Gut"
  else none

/-! ## ValuationEngine (quality_scoring.py lines 144–171) -/

/-- `quality_factor = quality_score / 70.0` (line 146). -/
def quality_factor (q : ℚ) : ℚ := q / 70

/-- `expected_price_per_sqm = price_per_sqm / quality_factor` (line 149). -/
def expected_price_per_sqm (p q : ℚ) : ℚ := p / quality_factor q

/-- `price_quality_ratio = price_per_sqm / expected_price_per_sqm`
(lines 152–154). -/
def price_quality_ratio (p q : ℚ) : ℚ := p / expected_price_per_sqm p q

/-- `get_value_rating` (lines 157–169); `none` models a `NaN` ratio, the
case `pd.isna(ratio)` answers. -/
def get_value_rating (r : Option ℚ) : String :=
  match r with
  | none => "Keine Daten"
  | some x =>
    if x < 0.85 then "Sehr günstig"
    else if x < 0.95 then "Günstig"
    else if x ≤ 1.05 then "Fair"
    else if x ≤ 1.15 then "Teuer"
    else "Sehr teuer"

/-! ## price_per_sqm normalisation (advanced_analytics.py lines 27–36,
web_app.py lines 30–39)

Both sites fill `price_per_sqm` with `purchase_price / plot_area` exactly
on the rows where `price_per_sqm` is missing and both operands are
present, and leave every other row unchanged.  Modelled per record. -/

/-- One record's `price_per_sqm` after `_clean_data` (advanced_analytics)
or the module-level cleaning block (web_app). -/
def clean_price_per_sqm (price area pps : Option ℚ) : Option ℚ :=
  match pps with
  | some v => some v
  | none =>
    match price, area with
    | some p, some a => some (p / a)
    | _, _ => none

/-! ## BatchExtractor (data_parser.py lines 122–203)

`GrundstueckParser.parse` loops over the listing nodes; the body of the
loop is wrapped in `try: ... except Exception: continue`, so a listing
whose extraction raises is skipped and the loop proceeds with the next
listing.  The per-listing extraction is abstracted as a fallible function
`extract`; `parseBatch` returns the emitted records (in source order) and
the number of skipped listings. -/

/-- The batch loop: a per-listing failure is caught at the listing
boundary, the listing is skipped and counted, and the loop continues. -/
def parseBatch {α β : Type} (extract : α → Except String β) :
    List α → List β × ℕ
  | [] => ([], 0)
  | x :: xs =>
    match extract x with
    | Except.ok r => (r :: (parseBatch extract xs).1, (parseBatch extract xs).2)
    | Except.error _ => ((parseBatch extract xs).1, (parseBatch extract xs).2 + 1)

/-! ## Attribute map and record defaults (data_parser.py lines 67–95,
166–191)

`extract_attributes` builds a Python dict from label to the attribute
element's text.  An XML element's `.text` is `None` when the element is
empty, so a stored value is itself nullable: the map is a list of
`(label, Option String)` pairs in insertion order, a later insertion
overwriting an earlier one (dict semantics: the last write wins). -/

/-- Python `dict.get(k, default)` over the insertion-ordered pair list:
the last value written for `k`, or `default` when `k` was never written. -/
def dictGet (attrs : List (String × Option String)) (k : String)
    (dflt : Option String) : Option String :=
  match attrs.reverse.find? (fun kv => kv.1 == k) with
  | some kv => kv.2
  | none => dflt

/-- Record field `short_term_constructible`:
`attributes.get('Short-term constructible:', 'No')` (line 178). -/
def extract_short_term (attrs : List (String × Option String)) : Option String :=
  dictGet attrs "Short-term constructible:" (some "No")

/-- Record field `demolition`: `attributes.get('Demolition:', 'No')`
(line 182). -/
def extract_demolition (attrs : List (String × Option String)) : Option String :=
  dictGet attrs "Demolition:" (some "No")

/-! ## Helper lemmas -/

/-- The permission sub-score only takes the values 20, 30, 40, 50. -/
lemma score_building_permission_mem (ct : Option String) :
    score_building_permission ct = 20 ∨ score_building_permission ct = 30 ∨
      score_building_permission ct = 40 ∨ score_building_permission ct = 50 := by
  unfold score_building_permission
  repeat' split
  all_goals omega

/-- The development sub-score only takes the values 20, 50, 60, 100. -/
lemma score_development_mem (dev : Option String) :
    score_development dev = 20 ∨ score_development dev = 50 ∨
      score_development dev = 60 ∨ score_development dev = 100 := by
  unfold score_development
  repeat' split
  all_goals omega

/-- The readiness sub-score only takes the values 40, 100. -/
lemma score_construction_readiness_mem (st : Option String) :
    score_construction_readiness st = 40 ∨ score_construction_readiness st = 100 := by
  unfold score_construction_readiness
  split <;> omega

/-- The demolition sub-score only takes the values 30, 70, 100. -/
lemma score_demolition_mem (dm : Option String) :
    score_demolition dm = 30 ∨ score_demolition dm = 70 ∨ score_demolition dm = 100 := by
  unfold score_demolition
  repeat' split
  all_goals omega

/-- The aggregate quality score lies in [25.5, 80]. -/
lemma quality_score_bounds (ct dev st dm : Option String) :
    (25.5 : ℚ) ≤ quality_score ct dev st dm ∧ quality_score ct dev st dm ≤ 80 := by
  have h1 : 20 ≤ score_building_permission ct ∧ score_building_permission ct ≤ 50 := by
    rcases score_building_permission_mem ct with h | h | h | h <;> omega
  have h2 : 20 ≤ score_development dev ∧ score_development dev ≤ 100 := by
    rcases score_development_mem dev with h | h | h | h <;> omega
  have h3 : 40 ≤ score_construction_readiness st ∧ score_construction_readiness st ≤ 100 := by
    rcases score_construction_readiness_mem st with h | h <;> omega
  have h4 : 30 ≤ score_demolition dm ∧ score_demolition dm ≤ 100 := by
    rcases score_demolition_mem dm with h | h | h <;> omega
  have c1a : (20 : ℚ) ≤ (score_building_permission ct : ℚ) := by exact_mod_cast h1.1
  have c1b : (score_building_permission ct : ℚ) ≤ 50 := by exact_mod_cast h1.2
  have c2a : (20 : ℚ) ≤ (score_development dev : ℚ) := by exact_mod_cast h2.1
  have c2b : (score_development dev : ℚ) ≤ 100 := by exact_mod_cast h2.2
  have c3a : (40 : ℚ) ≤ (score_construction_readiness st : ℚ) := by exact_mod_cast h3.1
  have c3b : (score_construction_readiness st : ℚ) ≤ 100 := by exact_mod_cast h3.2
  have c4a : (30 : ℚ) ≤ (score_demolition dm : ℚ) := by exact_mod_cast h4.1
  have c4b : (score_demolition dm : ℚ) ≤ 100 := by exact_mod_cast h4.2
  rw [quality_score]
  constructor <;> [nlinarith; nlinarith]

/-- Any score in (0, 80] falls into one of the three lower bins. -/
lemma quality_category_of_bounds (q : ℚ) (h0 : 0 < q) (h80 : q ≤ 80) :
    quality_category q = some "Niedrig" ∨ quality_category q = some "Mittel" ∨
      quality_category q = some "Gut" := by
  unfold quality_category
  split_ifs with h1 h2 h3 h4
  · exact Or.inl rfl
  · exact Or.inr (Or.inl rfl)
  · exact Or.inr (Or.inr rfl)
  · exfalso
    exact absurd h4.1 (not_lt.mpr h80)
  · exfalso
    push_neg at h1 h2 h3
    have t1 := h1 h0
    have t2 := h2 (by linarith)
    have t3 := h3 (by linarith)
    linarith

/-- The concrete record of C3: permission 30, development 20, readiness 40,
demolition 100, aggregate exactly 40. -/
lemma quality_score_sonstige_40 :
    quality_score (some "Sonstige") (some "Not developed") (some "No") (some "No") = 40 := by
  have h1 : score_building_permission (some "Sonstige") = 30 := by decide
  have h2 : score_development (some "Not developed") = 20 := by decide
  have h3 : score_construction_readiness (some "No") = 40 := by decide
  have h4 : score_demolition (some "No") = 100 := by decide
  rw [quality_score, h1, h2, h3, h4]
  norm_num

/-- The concrete record of C4: aggregate exactly 80. -/
lemma quality_score_best_80 :
    quality_score (some "Construction plan") (some "Developed") (some "Yes") (some "No") = 80 := by
  have h1 : score_building_permission (some "Construction plan") = 50 := by decide
  have h2 : score_development (some "Developed") = 100 := by decide
  have h3 : score_construction_readiness (some "Yes") = 100 := by decide
  have h4 : score_demolition (some "No") = 100 := by decide
  rw [quality_score, h1, h2, h3, h4]
  norm_num

/-! ## Claims -/

/-- C1: for every record (whose quality score is always non-null) and every
non-null, positive observed price per area, the computed
`price_quality_ratio` equals `quality_score / 70` exactly — i.e. the ratio
is `quality_factor` and is independent of the actual price.  (The data
model declares `pricePerArea` a nullable positive number, so positivity is
the non-null hypothesis.) -/
theorem price_quality_ratio_eq_quality_factor (ct dev st dm : Option String) (p : ℚ)
    (hp : 0 < p) :
    price_quality_ratio p (quality_score ct dev st dm) =
      quality_score ct dev st dm / 70 := by
  have hq : (0 : ℚ) < quality_score ct dev st dm :=
    lt_of_lt_of_le (by norm_num) (quality_score_bounds ct dev st dm).1
  have hp' : p ≠ 0 := ne_of_gt hp
  have hq' : quality_score ct dev st dm ≠ 0 := ne_of_gt hq
  rw [price_quality_ratio, expected_price_per_sqm, quality_factor]
  field_simp
  ring

/-- Witness for C1 at a concrete record and price. -/
theorem price_quality_ratio_eq_quality_factor_witness :
    (0 : ℚ) < 500 ∧
      price_quality_ratio 500 (quality_score (some "Sonstige") none none none) =
        quality_score (some "Sonstige") none none none / 70 :=
  ⟨by norm_num,
    price_quality_ratio_eq_quality_factor (some "Sonstige") none none none 500 (by norm_num)⟩

/-- C2 counterexample: the non-null value "Bebauungsplan vorhanden" contains
neither "construction plan" nor "like neighbour", so the claim assigns it
30, but the code's extra `'bebauungsplan' in ...` test assigns 50. -/
theorem score_building_permission_bebauungsplan :
    score_building_permission (some "Bebauungsplan vorhanden") = 50 ∧
      score_building_permission (some "Bebauungsplan vorhanden") ≠ 30 := by
  constructor <;> decide

/-- C2 amended: first-match priority over the case-insensitively lowered
`constructible_type` — containing "construction plan" OR "bebauungsplan"
scores 50; otherwise containing "like neighbour" scores 40; a null value
scores 20; any other non-null value scores 30. -/
theorem score_building_permission_spec (ct : Option String) :
    (∀ s, ct = some s →
      (containsSub (pyLower s) "construction plan"
        || containsSub (pyLower s) "bebauungsplan") = true →
      score_building_permission ct = 50)
  ∧ (∀ s, ct = some s →
      (containsSub (pyLower s) "construction plan"
        || containsSub (pyLower s) "bebauungsplan") = false →
      containsSub (pyLower s) "like neighbour" = true →
      score_building_permission ct = 40)
  ∧ (ct = none → score_building_permission ct = 20)
  ∧ (∀ s, ct = some s →
      (containsSub (pyLower s) "construction plan"
        || containsSub (pyLower s) "bebauungsplan") = false →
      containsSub (pyLower s) "like neighbour" = false →
      score_building_permission ct = 30) := by
  refine ⟨?_, ?_, ?_, ?_⟩
  · intro s hs h
    subst hs
    simp [score_building_permission, pyStrOpt, h]
  · intro s hs h hl
    subst hs
    simp [score_building_permission, pyStrOpt, h, hl]
  · intro h
    subst h
    decide
  · intro s hs h hl
    subst hs
    simp [score_building_permission, pyStrOpt, h, hl]

/-- C3 counterexample: the record with `constructible_type` "Sonstige",
`development` "Not developed", `short_term_constructible` "No" and
`demolition` "No" has aggregate exactly 40.0 and is categorized "Niedrig"
(Low), not "Mittel" (Medium); and a score of exactly 0.0 receives no
category at all, in particular not Low. -/
theorem quality_binning_boundary_counterexample :
    quality_score (some "Sonstige") (some "Not developed") (some "No") (some "No") = 40
  ∧ quality_category
      (quality_score (some "Sonstige") (some "Not developed") (some "No") (some "No")) =
      some "Niedrig"
  ∧ quality_category
      (quality_score (some "Sonstige") (some "Not developed") (some "No") (some "No")) ≠
      some "Mittel"
  ∧ quality_category 0 ≠ some "Niedrig" := by
  have h40 := quality_score_sonstige_40
  have hc : quality_category (40 : ℚ) = some "Niedrig" := by norm_num [quality_category]
  have h0 : quality_category (0 : ℚ) = none := by norm_num [quality_category]
  refine ⟨h40, ?_, ?_, ?_⟩
  · rw [h40, hc]
  · rw [h40, hc]
    simp
  · rw [h0]
    simp

/-- C3 amended: the bins are right-inclusive with open lower bound, so an
aggregate of exactly 40.0 is categorized Low ("Niedrig"), an aggregate of
exactly 0.0 falls outside every bin and receives no category, and every
record's aggregate (always in [25.5, 80]) does receive a category. -/
theorem quality_binning_amended :
    quality_category 40 = some "Niedrig"
  ∧ quality_category 0 = none
  ∧ ∀ ct dev st dm : Option String,
      quality_category (quality_score ct dev st dm) ≠ none := by
  refine ⟨by norm_num [quality_category], by norm_num [quality_category], ?_⟩
  intro ct dev st dm
  have hb := quality_score_bounds ct dev st dm
  have h0 : (0 : ℚ) < quality_score ct dev st dm := lt_of_lt_of_le (by norm_num) hb.1
  rcases quality_category_of_bounds _ h0 hb.2 with h | h | h <;> simp [h]

/-- C4 counterexample: the end-to-end record of the claim (permission
"Construction plan", development "Developed", readiness "Yes", demolition
"No") is categorized "Gut" (Good), not "Sehr Gut" (VeryGood), and at any
non-null price (here 500) its value rating is "Teuer" (Expensive), not
"Sehr teuer" (VeryExpensive), since 8/7 ≤ 1.15. -/
theorem end_to_end_counterexample :
    quality_category
      (quality_score (some "Construction plan") (some "Developed") (some "Yes") (some "No")) ≠
      some "Sehr Gut"
  ∧ get_value_rating (some (price_quality_ratio 500
      (quality_score (some "Construction plan") (some "Developed") (some "Yes") (some "No")))) ≠
      "Sehr teuer" := by
  have h80 := quality_score_best_80
  have hc : quality_category (80 : ℚ) = some "Gut" := by norm_num [quality_category]
  have hr : price_quality_ratio 500 80 = 8 / 7 := by
    rw [price_quality_ratio, expected_price_per_sqm, quality_factor]
    norm_num
  have hv : get_value_rating (some ((8 : ℚ) / 7)) = "Teuer" := by
    norm_num [get_value_rating]
  constructor
  · rw [h80, hc]
    simp
  · rw [h80, hr, hv]
    simp

/-- C4 amended: the end-to-end record receives sub-scores 50/100/100/100,
aggregate exactly 80.0, quality category "Gut" (Good; the bin (60,80] is
right-inclusive at 80), ratio exactly 80/70 = 8/7 for any positive observed
price per area, and value rating "Teuer" (Expensive; 8/7 ≈ 1.143 ≤ 1.15). -/
theorem end_to_end_amended (p : ℚ) (hp : 0 < p) :
    score_building_permission (some "Construction plan") = 50
  ∧ score_development (some "Developed") = 100
  ∧ score_construction_readiness (some "Yes") = 100
  ∧ score_demolition (some "No") = 100
  ∧ quality_score (some "Construction plan") (some "Developed") (some "Yes") (some "No") = 80
  ∧ quality_category
      (quality_score (some "Construction plan") (some "Developed") (some "Yes") (some "No")) =
      some "Gut"
  ∧ price_quality_ratio p
      (quality_score (some "Construction plan") (some "Developed") (some "Yes") (some "No")) =
      8 / 7
  ∧ get_value_rating (some (price_quality_ratio p
      (quality_score (some "Construction plan") (some "Developed") (some "Yes") (some "No")))) =
      "Teuer" := by
  have h80 := quality_score_best_80
  have hp' : p ≠ 0 := ne_of_gt hp
  have hr : price_quality_ratio p 80 = 8 / 7 := by
    rw [price_quality_ratio, expected_price_per_sqm, quality_factor]
    field_simp
    ring
  refine ⟨by decide, by decide, by decide, by decide, h80, ?_, ?_, ?_⟩
  · rw [h80]
    norm_num [quality_category]
  · rw [h80, hr]
  · rw [h80, hr]
    norm_num [get_value_rating]

/-- Witness for C4 (amended) at price 500. -/
theorem end_to_end_amended_witness :
    (0 : ℚ) < 500 ∧
      get_value_rating (some (price_quality_ratio 500
        (quality_score (some "Construction plan") (some "Developed") (some "Yes") (some "No")))) =
        "Teuer" :=
  ⟨by norm_num, (end_to_end_amended 500 (by norm_num)).2.2.2.2.2.2.2⟩

/-- C5: the value rating is a total function of the (nullable) price-quality
ratio: ratio < 0.85 → "Sehr günstig" (VeryCheap); 0.85 ≤ ratio < 0.95 →
"Günstig" (Cheap); 0.95 ≤ ratio ≤ 1.05 → "Fair"; 1.05 < ratio ≤ 1.15 →
"Teuer" (Expensive); ratio > 1.15 → "Sehr teuer" (VeryExpensive); a null
ratio → "Keine Daten" (NoData); and for every input exactly one of these
six ratings is produced (the function is total, no error path exists). -/
theorem get_value_rating_total (x : ℚ) :
    get_value_rating none = "Keine Daten"
  ∧ (x < 0.85 → get_value_rating (some x) = "Sehr günstig")
  ∧ (0.85 ≤ x → x < 0.95 → get_value_rating (some x) = "Günstig")
  ∧ (0.95 ≤ x → x ≤ 1.05 → get_value_rating (some x) = "Fair")
  ∧ (1.05 < x → x ≤ 1.15 → get_value_rating (some x) = "Teuer")
  ∧ (1.15 < x → get_value_rating (some x) = "Sehr teuer")
  ∧ ∀ r : Option ℚ,
      get_value_rating r = "Keine Daten" ∨ get_value_rating r = "Sehr günstig"
        ∨ get_value_rating r = "Günstig" ∨ get_value_rating r = "Fair"
        ∨ get_value_rating r = "Teuer" ∨ get_value_rating r = "Sehr teuer" := by
  refine ⟨rfl, ?_, ?_, ?_, ?_, ?_, ?_⟩
  · intro h
    simp only [get_value_rating]
    rw [if_pos h]
  · intro h1 h2
    simp only [get_value_rating]
    rw [if_neg (not_lt.mpr h1), if_pos h2]
  · intro h1 h2
    simp only [get_value_rating]
    rw [if_neg (not_lt.mpr (by linarith)), if_neg (not_lt.mpr h1), if_pos h2]
  · intro h1 h2
    simp only [get_value_rating]
    rw [if_neg (not_lt.mpr (by linarith)), if_neg (not_lt.mpr (by linarith)),
      if_neg (not_le.mpr h1), if_pos h2]
  · intro h
    simp only [get_value_rating]
    rw [if_neg (not_lt.mpr (by linarith)), if_neg (not_lt.mpr (by linarith)),
      if_neg (not_le.mpr (by linarith)), if_neg (not_le.mpr h)]
  · intro r
    cases r with
    | none => exact Or.inl rfl
    | some y =>
      simp only [get_value_rating]
      split_ifs <;> tauto

/-- C6: per record, if `price_per_sqm` was null before normalization and
both `purchase_price` and `plot_area` are non-null, the normalized
`price_per_sqm` equals `purchase_price / plot_area` exactly; a record whose
`price_per_sqm` was already present keeps its original value. -/
theorem clean_price_per_sqm_spec (price area pps : Option ℚ) :
    (∀ p a, pps = none → price = some p → area = some a →
      clean_price_per_sqm price area pps = some (p / a))
  ∧ (∀ v, pps = some v → clean_price_per_sqm price area pps = some v) := by
  constructor
  · intro p a hpps hprice harea
    subst hpps
    subst hprice
    subst harea
    rfl
  · intro v hpps
    subst hpps
    rfl

/-- C7: the batch loop isolates per-listing failures — for every fallible
per-listing extractor and every input list, the loop terminates with the
successfully extracted records (in source order, a failing listing merely
skipped) and a skip count, and the number of skipped listings plus the
number of emitted records equals the total number of listings scanned. -/
theorem parseBatch_isolates_failures {α β : Type} (extract : α → Except String β)
    (items : List α) :
    (parseBatch extract items).1 = items.filterMap (fun x => (extract x).toOption)
  ∧ (parseBatch extract items).2 + (parseBatch extract items).1.length = items.length := by
  induction items with
  | nil => exact ⟨rfl, rfl⟩
  | cons x xs ih =>
    cases hx : extract x with
    | ok r =>
      refine ⟨?_, ?_⟩
      · simp only [parseBatch, hx, List.filterMap_cons, Except.toOption, ih.1]
      · have h2 := ih.2
        simp only [parseBatch, hx, List.length_cons]
        omega
    | error e =>
      refine ⟨?_, ?_⟩
      · simp only [parseBatch, hx, List.filterMap_cons, Except.toOption, ih.1]
      · have h2 := ih.2
        simp only [parseBatch, hx, List.length_cons]
        omega

/-- C8: `parse_price` strips the currency symbol, discards a trailing
"/ unit" suffix, removes thousands separators and parses the remainder as
a decimal; it returns null on empty input (and on a null input, and on
parse failure) and, being a total function, never raises to the caller.
In particular `parse_price "€598,550" = 598550`,
`parse_price "€1,897 / month" = 1897` and `parse_price "" = null`. -/
theorem parse_price_spec :
    parse_price (some "€598,550") = some 598550
  ∧ parse_price (some "€1,897 / month") = some 1897
  ∧ parse_price (some "") = none
  ∧ parse_price none = none
  ∧ parse_price (some "€abc") = none := by
  refine ⟨?_, ?_, ?_, rfl, ?_⟩
  · have hc : clean_price_str "€598,550" = "598550" := by decide
    have hq : pyFloatParts "598550" = some (false, 598550, 0, 0, none) := by rfl
    have he : ("€598,550" : String).isEmpty = false := by decide
    rw [parse_price, he]
    simp only [Bool.false_eq_true, if_false, hc, pyFloat, hq, Option.map_some]
    norm_num [ratOfParts]
  · have hc : clean_price_str "€1,897 / month" = "1897" := by decide
    have hq : pyFloatParts "1897" = some (false, 1897, 0, 0, none) := by rfl
    have he : ("€1,897 / month" : String).isEmpty = false := by decide
    rw [parse_price, he]
    simp only [Bool.false_eq_true, if_false, hc, pyFloat, hq, Option.map_some]
    norm_num [ratOfParts]
  · rw [parse_price]
    rfl
  · have hc : clean_price_str "€abc" = "abc" := by decide
    have hq : pyFloatParts "abc" = none := by rfl
    have he : ("€abc" : String).isEmpty = false := by decide
    rw [parse_price, he]
    simp only [Bool.false_eq_true, if_false, hc, pyFloat, hq, Option.map_none]
    rfl

/-- C9: each sub-scorer only returns values from its finite set (permission
{20,30,40,50}, development {20,50,60,100}, readiness {40,100}, demolition
{30,70,100}); hence for every record the aggregate lies in [25.5, 80]
(minimum 20×0.40+20×0.25+40×0.20+30×0.15 = 25.5, maximum
50×0.40+100×0.25+100×0.20+100×0.15 = 80), and the top quality category
"Sehr Gut" — which requires a score strictly above 80 — is never produced. -/
theorem quality_score_range (ct dev st dm : Option String) :
    (score_building_permission ct = 20 ∨ score_building_permission ct = 30 ∨
      score_building_permission ct = 40 ∨ score_building_permission ct = 50)
  ∧ (score_development dev = 20 ∨ score_development dev = 50 ∨
      score_development dev = 60 ∨ score_development dev = 100)
  ∧ (score_construction_readiness st = 40 ∨ score_construction_readiness st = 100)
  ∧ (score_demolition dm = 30 ∨ score_demolition dm = 70 ∨ score_demolition dm = 100)
  ∧ (25.5 : ℚ) ≤ quality_score ct dev st dm
  ∧ quality_score ct dev st dm ≤ 80
  ∧ (quality_category (quality_score ct dev st dm) = some "Niedrig" ∨
      quality_category (quality_score ct dev st dm) = some "Mittel" ∨
      quality_category (quality_score ct dev st dm) = some "Gut") := by
  have hb := quality_score_bounds ct dev st dm
  have h0 : (0 : ℚ) < quality_score ct dev st dm := lt_of_lt_of_le (by norm_num) hb.1
  exact ⟨score_building_permission_mem ct, score_development_mem dev,
    score_construction_readiness_mem st, score_demolition_mem dm,
    hb.1, hb.2, quality_category_of_bounds _ h0 hb.2⟩

/-- C10 counterexample: a listing carrying the attribute label with an
empty text element stores a null value under the label, and `dict.get`
only substitutes its default for missing keys, so the emitted record's
`short_term_constructible` (likewise `demolition`) is null — the fields
are not "never null". -/
theorem extract_defaults_counterexample :
    extract_short_term [("Short-term constructible:", (none : Option String))] = none
  ∧ extract_demolition [("Demolition:", (none : Option String))] = none := by
  constructor <;> rfl

/-- C10 amended: when the attribute label is absent from the listing, the
field defaults to the literal "No" (so an absent readiness signal scores 40
and an absent demolition signal scores 100); and the fields are non-null in
every record all of whose present attribute values are themselves non-null
(an attribute element with empty text is the only way to a null field). -/
theorem extract_defaults_amended (attrs : List (String × Option String)) :
    ((∀ kv ∈ attrs, kv.1 ≠ "Short-term constructible:") →
      extract_short_term attrs = some "No" ∧
        score_construction_readiness (extract_short_term attrs) = 40)
  ∧ ((∀ kv ∈ attrs, kv.1 ≠ "Demolition:") →
      extract_demolition attrs = some "No" ∧
        score_demolition (extract_demolition attrs) = 100)
  ∧ ((∀ kv ∈ attrs, kv.2 ≠ none) →
      extract_short_term attrs ≠ none ∧ extract_demolition attrs ≠ none) := by
  refine ⟨?_, ?_, ?_⟩
  · intro h
    have hf : attrs.reverse.find? (fun kv => kv.1 == "Short-term constructible:") = none := by
      rw [List.find?_eq_none]
      intro kv hkv
      simpa using h kv (List.mem_reverse.mp hkv)
    have hv : extract_short_term attrs = some "No" := by
      rw [extract_short_term, dictGet, hf]
    refine ⟨hv, ?_⟩
    rw [hv]
    decide
  · intro h
    have hf : attrs.reverse.find? (fun kv => kv.1 == "Demolition:") = none := by
      rw [List.find?_eq_none]
      intro kv hkv
      simpa using h kv (List.mem_reverse.mp hkv)
    have hv : extract_demolition attrs = some "No" := by
      rw [extract_demolition, dictGet, hf]
    refine ⟨hv, ?_⟩
    rw [hv]
    decide
  · intro h
    constructor
    · rw [extract_short_term, dictGet]
      cases hf : attrs.reverse.find? (fun kv => kv.1 == "Short-term constructible:") with
      | none => simp
      | some kv => exact h kv (List.mem_reverse.mp (List.mem_of_find?_eq_some hf))
    · rw [extract_demolition, dictGet]
      cases hf : attrs.reverse.find? (fun kv => kv.1 == "Demolition:") with
      | none => simp
      | some kv => exact h kv (List.mem_reverse.mp (List.mem_of_find?_eq_some hf))
